import Mathlib

/-!
Shallow embedding of the ascii-vid-gen core pipeline.

JavaScript numbers are modelled as exact rationals (ℚ); `Math.floor`,
`Math.ceil`, `Math.round`, `Math.min`, `Math.max`, `Math.abs` become
`Int.floor`, `Int.ceil`, `jround`, `min`, `max`, `abs` on ℚ.
Strings are Lean `String`s; character indexing into a ramp is modelled
on the string's character list.
-/

namespace AsciiVidGen

/-- JS `Math.round`: round half toward positive infinity. -/
def jround (q : ℚ) : ℤ := ⌊q + 1/2⌋

/-- JS `Math.min` on two numbers (an `if` so that it kernel-reduces). -/
def jmin (a b : ℚ) : ℚ := if a ≤ b then a else b

/-- JS `Math.max` on two numbers. -/
def jmax (a b : ℚ) : ℚ := if b ≤ a then a else b

/-- JS `Math.abs`. -/
def jabs (a : ℚ) : ℚ := if a < 0 then -a else a

/-- JS `Math.min` on integer-valued arguments. -/
def jminInt (a b : ℤ) : ℤ := if a ≤ b then a else b

/-- JS `Math.max` on integer-valued arguments. -/
def jmaxInt (a b : ℤ) : ℤ := if b ≤ a then a else b

/-- RGB color triple (channels are JS numbers, i.e. rationals here). -/
structure Rgb where
  r : ℚ
  g : ℚ
  b : ℚ
deriving DecidableEq, Repr

/-- The `colorMode` union type of `ASCIISettings`. -/
inductive ColorMode where
  | original | monochrome | gradient | custom
deriving DecidableEq, Repr

/-- The `blendMode` union type of `ASCIISettings`. -/
inductive BlendMode where
  | normal | multiply | screen | overlay | difference
deriving DecidableEq, Repr

/-- The `ASCIISettings` interface. The character set is modelled as the
string's list of characters. -/
structure ASCIISettings where
  characterSet : List Char
  pixelSize : ℚ
  colorMode : ColorMode
  monochromeColor : String
  gradientColors : List String
  backgroundColor : String
  transparentBackground : Bool
  blendMode : BlendMode
  contrast : ℚ
  brightness : ℚ
  invert : Bool
  fontSize : ℚ
deriving DecidableEq, Repr

/-- The `DEFAULT_SETTINGS` from the source. -/
def DEFAULT_SETTINGS : ASCIISettings where
  characterSet := ['.', ':', '-', '=', '+', '*', '#', '%', '@']
  pixelSize := 8
  colorMode := .original
  monochromeColor := "#00ff88"
  gradientColors := ["#00ff88", "#ff00ff", "#00ffff"]
  backgroundColor := "#0a0a0f"
  transparentBackground := false
  blendMode := .normal
  contrast := 1
  brightness := 1
  invert := false
  fontSize := 10

/-- The `CHAR_ASPECT_RATIO = 0.6`, the monospace width/height ratio. -/
def CHAR_ASPECT_RATIO : ℚ := 0.6

/-- The `rgbToGrayscale`: ITU-R 601 luma weighting. -/
def rgbToGrayscale (r g b : ℚ) : ℚ :=
  0.299 * r + 0.587 * g + 0.114 * b

/-- The `applyBrightness`: scale then clamp into [0,255]. -/
def applyBrightness (value brightness : ℚ) : ℚ :=
  jmin 255 (jmax 0 (value * brightness))

/-- The `applyContrast`: identity within 0.001 of the neutral factor 1.0,
otherwise `(value - 128) * contrast + 128` clamped into [0,255]. -/
def applyContrast (value contrast : ℚ) : ℚ :=
  if jabs (contrast - 1) < 0.001 then value
  else jmin 255 (jmax 0 ((value - 128) * contrast + 128))

/-- The `getCharacterForBrightness`: map an intensity to a ramp character,
honoring inversion.  `characterSet[i]` is total in the source because the
index is clamped into range; modelled with `List.getD`. -/
def getCharacterForBrightness (brightness : ℚ) (characterSet : List Char)
    (invert : Bool) : Char :=
  if characterSet.length = 0 then ' '
  else if characterSet.length = 1 then characterSet.headD ' '
  else
    let normalizedBrightness := jmin 255 (jmax 0 brightness) / 255
    let adjustedBrightness :=
      if invert then 1 - normalizedBrightness else normalizedBrightness
    let index : ℤ := jround (adjustedBrightness * ((characterSet.length : ℚ) - 1))
    characterSet.getD (jminInt (jmaxInt 0 index) ((characterSet.length : ℤ) - 1)).toNat ' '

/-- One hex digit of `parseInt(_, 16)`: the regex in `hexToRgb` admits
`0-9`, `a-f` and (case-insensitive flag) `A-F`. -/
def hexDigitVal (c : Char) : Option ℕ :=
  if '0' ≤ c ∧ c ≤ '9' then some (c.toNat - 48)
  else if 'a' ≤ c ∧ c ≤ 'f' then some (c.toNat - 97 + 10)
  else if 'A' ≤ c ∧ c ≤ 'F' then some (c.toNat - 65 + 10)
  else none

/-- The `^#?` part of the `hexToRgb` regex: strip one optional leading hash. -/
def stripHash : List Char → List Char
  | '#' :: rest => rest
  | cs => cs

/-- The three capture groups of `/^#?([a-f\d]{2})([a-f\d]{2})([a-f\d]{2})$/i`
applied to `parseInt(_, 16)`: exactly six hex digits, read pairwise. -/
def parseHex6 (cs : List Char) : Option (ℕ × ℕ × ℕ) :=
  match cs with
  | [c1, c2, c3, c4, c5, c6] =>
    match hexDigitVal c1, hexDigitVal c2, hexDigitVal c3,
          hexDigitVal c4, hexDigitVal c5, hexDigitVal c6 with
    | some a, some b, some c, some d, some e, some f =>
      some (16 * a + b, 16 * c + d, 16 * e + f)
    | _, _, _, _, _, _ => none
  | _ => none

/-- The `{r, g, b}` record returned by `hexToRgb`: its channels are always
byte integers (each parsed from two hex digits), so they are modelled as ℕ. -/
structure RgbN where
  r : ℕ
  g : ℕ
  b : ℕ
deriving DecidableEq, Repr

/-- The `hexToRgb`: regex parse with fallback to white on malformed input. -/
def hexToRgb (hex : String) : RgbN :=
  match parseHex6 (stripHash hex.toList) with
  | some (r, g, b) => ⟨r, g, b⟩
  | none => ⟨255, 255, 255⟩

/-- Whether the `hexToRgb` regex matches, i.e. the string is well-formed
for `hexToRgb` (no white fallback taken). -/
def wellFormedHex (hex : String) : Bool :=
  (parseHex6 (stripHash hex.toList)).isSome

/-- Hex digit character produced by JS `Number.prototype.toString(16)`
(lowercase). -/
def hexDigitChar (v : ℕ) : Char :=
  if v < 10 then Char.ofNat (48 + v) else Char.ofNat (87 + v)

/-- Digits of `n.toString(16)` for `n ≥ 1`; `fuel` bounds the recursion
(`fuel = n + 1` suffices since the argument is divided by 16 each step). -/
def toString16Aux : ℕ → ℕ → List Char
  | 0, _ => []
  | _ + 1, 0 => []
  | fuel + 1, n + 1 =>
    toString16Aux fuel ((n + 1) / 16) ++ [hexDigitChar ((n + 1) % 16)]

/-- JS `n.toString(16)` for a nonnegative integer `n`. -/
def toString16 (n : ℕ) : List Char :=
  if n = 0 then ['0'] else toString16Aux (n + 1) n

/-- JS `.padStart(2, "0")`. -/
def padStart2 (cs : List Char) : List Char :=
  if cs.length < 2 then List.replicate (2 - cs.length) '0' ++ cs else cs

/-- The `rgbToHex`: `'#' + [r,g,b].map(x => x.toString(16).padStart(2,'0')).join('')`.
Every call site passes `Math.round`ed nonnegative channel values, so the
channels are modelled as ℕ. -/
def rgbToHex (r g b : ℕ) : String :=
  ⟨'#' :: (padStart2 (toString16 r) ++ padStart2 (toString16 g) ++
    padStart2 (toString16 b))⟩

/-- The `interpolateGradient`: linear interpolation between the two stops
bracketing `position` scaled into stop-index space.  Negative positions
are outside the function's JS domain (a negative array index would make
`hexToRgb` throw); the model clamps the index at 0 via `Int.toNat`. -/
def interpolateGradient (colors : List String) (position : ℚ) : String :=
  if colors.length = 0 then "#ffffff"
  else if colors.length = 1 then colors.headD ""
  else
    let scaledPosition := position * ((colors.length : ℚ) - 1)
    let index : ℤ := ⌊scaledPosition⌋
    let t : ℚ := scaledPosition - index
    if (colors.length : ℤ) - 1 ≤ index then colors.getLastD ""
    else
      let color1 := hexToRgb (colors.getD index.toNat "")
      let color2 := hexToRgb (colors.getD (index.toNat + 1) "")
      rgbToHex (jround ((color1.r : ℚ) + ((color2.r : ℚ) - (color1.r : ℚ)) * t)).toNat
        (jround ((color1.g : ℚ) + ((color2.g : ℚ) - (color1.g : ℚ)) * t)).toNat
        (jround ((color1.b : ℚ) + ((color2.b : ℚ) - (color1.b : ℚ)) * t)).toNat

/-- The `applyBlendMode`: per-channel transform of the averaged cell color. -/
def applyBlendMode (sourceR sourceG sourceB : ℚ) (mode : BlendMode) : Rgb :=
  match mode with
  | .multiply =>
    ⟨sourceR * sourceR / 255, sourceG * sourceG / 255, sourceB * sourceB / 255⟩
  | .screen =>
    ⟨255 - (255 - sourceR) * (255 - sourceR) / 255,
     255 - (255 - sourceG) * (255 - sourceG) / 255,
     255 - (255 - sourceB) * (255 - sourceB) / 255⟩
  | .overlay =>
    ⟨if sourceR < 128 then 2 * sourceR * sourceR / 255
       else 255 - 2 * (255 - sourceR) * (255 - sourceR) / 255,
     if sourceG < 128 then 2 * sourceG * sourceG / 255
       else 255 - 2 * (255 - sourceG) * (255 - sourceG) / 255,
     if sourceB < 128 then 2 * sourceB * sourceB / 255
       else 255 - 2 * (255 - sourceB) * (255 - sourceB) / 255⟩
  | .difference =>
    ⟨jabs (sourceR - 128), jabs (sourceG - 128), jabs (sourceB - 128)⟩
  | .normal => ⟨sourceR, sourceG, sourceB⟩

/-- One cell of the output grid (the `ASCIIChar` interface).  The glyph is a
single character; `x`/`y` are the pixel-space top-left coordinates of the
sampled block. -/
structure ASCIIChar where
  char : Char
  color : String
  x : ℤ
  y : ℤ
deriving DecidableEq, Repr

/-- A raster frame: the `ImageData` buffer read by `convertFrameToASCII`,
viewed as a pixel function.  `pixels[((y * width) + x) * 4 + k]` is channel
`k` of `pixel x y`; the alpha channel is never read by the sampler. -/
structure Frame where
  width : ℕ
  height : ℕ
  pixel : ℕ → ℕ → Rgb

/-- The `stepX = pixelSize`. -/
def stepX (s : ASCIISettings) : ℚ := s.pixelSize

/-- The `stepY = pixelSize / CHAR_ASPECT_RATIO`. -/
def stepY (s : ASCIISettings) : ℚ := s.pixelSize / CHAR_ASPECT_RATIO

/-- The `cols = Math.floor(width / stepX)`. -/
def colsOf (width : ℕ) (s : ASCIISettings) : ℤ := ⌊(width : ℚ) / stepX s⌋

/-- The `rows = Math.floor(height / stepY)`. -/
def rowsOf (height : ℕ) (s : ASCIISettings) : ℤ := ⌊(height : ℚ) / stepY s⌋

/-- The `pixelX = Math.floor(x * stepX)` for column index `x`. -/
def pixelXOf (s : ASCIISettings) (x : ℕ) : ℤ := ⌊(x : ℚ) * stepX s⌋

/-- The `pixelY = Math.floor(y * stepY)` for row index `y`. -/
def pixelYOf (s : ASCIISettings) (y : ℕ) : ℤ := ⌊(y : ℚ) * stepY s⌋

/-- Number of columns of the sampling block actually visited: the inner
loop runs `px` from 0 while `px < blockWidth && pixelX + px < width` with
`blockWidth = Math.ceil(stepX)`, i.e. `max 0 (min ⌈stepX⌉ (width - pixelX))`
iterations. -/
def sampleW (frame : Frame) (s : ASCIISettings) (x : ℕ) : ℕ :=
  (jminInt ⌈stepX s⌉ ((frame.width : ℤ) - pixelXOf s x)).toNat

/-- Number of rows of the sampling block actually visited (`py` runs while
`py < blockHeight && pixelY + py < height`, `blockHeight = Math.ceil(stepY)`). -/
def sampleH (frame : Frame) (s : ASCIISettings) (y : ℕ) : ℕ :=
  (jminInt ⌈stepY s⌉ ((frame.height : ℤ) - pixelYOf s y)).toNat

/-- The `count` accumulated by the sampling loops: one increment per visited
pixel of the block. -/
def sampleCount (frame : Frame) (s : ASCIISettings) (x y : ℕ) : ℕ :=
  sampleH frame s y * sampleW frame s x

/-- The `totalR`/`totalG`/`totalB` accumulated over the sampled block, for the
channel selected by `chan`. -/
def cellTotal (frame : Frame) (s : ASCIISettings) (x y : ℕ) (chan : Rgb → ℚ) : ℚ :=
  ((List.range (sampleH frame s y)).map (fun py =>
    ((List.range (sampleW frame s x)).map (fun px =>
      chan (frame.pixel ((pixelXOf s x).toNat + px) ((pixelYOf s y).toNat + py)))).sum)).sum

/-- The `avgR`/`avgG`/`avgB` of the cell before the blend-mode transform
(`total / count`). -/
def preBlendAvg (frame : Frame) (s : ASCIISettings) (x y : ℕ) : Rgb :=
  ⟨cellTotal frame s x y Rgb.r / (sampleCount frame s x y : ℚ),
   cellTotal frame s x y Rgb.g / (sampleCount frame s x y : ℚ),
   cellTotal frame s x y Rgb.b / (sampleCount frame s x y : ℚ)⟩

/-- The body of the per-cell loop of `convertFrameToASCII`: `none` is the
`if (count === 0) continue;` branch (the cell is omitted from the row),
otherwise the `ASCIIChar` pushed onto the row. -/
def cellOf (frame : Frame) (s : ASCIISettings) (x y : ℕ) : Option ASCIIChar :=
  if sampleCount frame s x y = 0 then none
  else
    let avg := preBlendAvg frame s x y
    let blended := applyBlendMode avg.r avg.g avg.b s.blendMode
    let gray :=
      applyContrast
        (applyBrightness (rgbToGrayscale blended.r blended.g blended.b) s.brightness)
        s.contrast
    let ch := getCharacterForBrightness gray s.characterSet s.invert
    let color :=
      match s.colorMode with
      | .monochrome => s.monochromeColor
      | .gradient => interpolateGradient s.gradientColors (gray / 255)
      | .custom => s.monochromeColor
      | .original =>
        rgbToHex (jround blended.r).toNat (jround blended.g).toNat
          (jround blended.b).toNat
    some ⟨ch, color, pixelXOf s x, pixelYOf s y⟩

/-- The `convertFrameToASCII`: the row-major grid of sampled cells.  The outer
loop pushes one row per `y < rows`; the inner loop pushes `cellOf` for each
`x < cols`, skipping the zero-count cells. -/
def convertFrameToASCII (frame : Frame) (s : ASCIISettings) : List (List ASCIIChar) :=
  (List.range (rowsOf frame.height s).toNat).map (fun y =>
    (List.range (colsOf frame.width s).toNat).filterMap (fun x => cellOf frame s x y))

/-- The display color the spec prescribes for `original` mode: the
*pre-blend* averaged RGB of the cell, rounded to hex.  (Comparison
definition written from the spec sentence, to be checked against
`cellOf`.) -/
def originalColorSpec (frame : Frame) (s : ASCIISettings) (x y : ℕ) : String :=
  let avg := preBlendAvg frame s x y
  rgbToHex (jround avg.r).toNat (jround avg.g).toNat (jround avg.b).toNat

/-- A concrete 3×5 all-black frame, used as a test vector. -/
def blackFrame : Frame := ⟨3, 5, fun _ _ => ⟨0, 0, 0⟩⟩

/-- Default settings at pixelSize 3 (so `stepX = 3` and `stepY = 5`
exactly), used as a test vector. -/
def smallSettings : ASCIISettings := { DEFAULT_SETTINGS with pixelSize := 3 }

/-- The `smallSettings` with the `difference` blend mode, used to separate the
pre-blend and post-blend cell colors. -/
def diffSettings : ASCIISettings :=
  { DEFAULT_SETTINGS with pixelSize := 3, blendMode := .difference }

/-- One decoded GIF frame as consumed by `exportAsGIF` (the `GifFrame`
interface); the raster patch itself is handled by canvas collaborators and
is not needed for the frame-sequence bookkeeping modelled here. -/
structure GifFrame where
  delay : ℚ
  disposalType : ℕ
deriving DecidableEq, Repr

/-- One frame appended to the output GIF: which source frame it was
rendered from and the delay passed to `gif.addFrame`. -/
structure ExportedGifFrame where
  sourceIndex : ℕ
  delay : ℚ
deriving DecidableEq, Repr

/-- The animated-GIF branch of `exportAsGIF`: `for (i = 0; i < totalFrames;
i++)` renders source frame `i` and appends it with
`delay = gifFrames[i].delay || 100` (JS `||`: a zero delay is falsy and is
replaced by 100).  Rendering to the export canvas is a collaborator; the
output frame is identified by its source index. -/
def exportAsGIFGif (gifFrames : List GifFrame) : List ExportedGifFrame :=
  gifFrames.enum.map (fun p =>
    ⟨p.1, if p.2.delay = 0 then 100 else p.2.delay⟩)

/-- One frame appended to the output GIF on the video-resampling path: the
seek timestamp and the delay passed to `gif.addFrame`. -/
structure ExportedVideoFrame where
  time : ℚ
  delay : ℚ
deriving DecidableEq, Repr

/-- The video branch of `exportAsGIF`: `fps = 15`,
`totalFrames = Math.min(Math.floor(duration * fps), 150)`, one frame per
loop iteration seeked to `(i / totalFrames) * duration` and appended with
`delay = 1000 / fps`. -/
def exportAsGIFVideo (duration : ℚ) : List ExportedVideoFrame :=
  let fps : ℚ := 15
  let totalFrames : ℤ := jminInt ⌊duration * fps⌋ 150
  (List.range totalFrames.toNat).map (fun (i : ℕ) =>
    ⟨((i : ℚ) / (totalFrames : ℚ)) * duration, 1000 / fps⟩)

/-- The `addGradientColor` from the control panel: append `"#ffffff"` while
fewer than 8 stops. -/
def addGradientColor (colors : List String) : List String :=
  if colors.length < 8 then colors ++ ["#ffffff"] else colors

/-- The `removeGradientColor`: drop the stop at `index`
(`filter((_, i) => i !== index)`) while more than 2 stops. -/
def removeGradientColor (colors : List String) (index : ℕ) : List String :=
  if 2 < colors.length then colors.eraseIdx index else colors

/-- The `updateGradientColor`: copy the array and assign `newColors[index] =
color`.  The panel invokes it only with indices produced by mapping over
the existing stops, where the JS assignment is exactly `List.set` (an
out-of-range JS assignment would instead grow the array). -/
def updateGradientColor (colors : List String) (index : ℕ) (color : String) :
    List String :=
  colors.set index color

/-- A color string in the canonical form `rgbToHex` emits: a hash followed
by six lowercase hex digits, here given by their digit values. -/
def mkHexColor (v1 v2 v3 v4 v5 v6 : Fin 16) : String :=
  ⟨['#', hexDigitChar v1.val, hexDigitChar v2.val, hexDigitChar v3.val,
    hexDigitChar v4.val, hexDigitChar v5.val, hexDigitChar v6.val]⟩

theorem jmin_eq_min (a b : ℚ) : jmin a b = min a b := (min_def a b).symm

theorem jmax_eq_max (a b : ℚ) : jmax a b = max a b := by
  rcases le_or_lt b a with h | h
  · rw [jmax, if_pos h, max_eq_left h]
  · rw [jmax, if_neg (not_le.mpr h), max_eq_right h.le]

theorem jabs_eq_abs (a : ℚ) : jabs a = |a| := by
  rcases lt_or_le a 0 with h | h
  · rw [jabs, if_pos h, abs_of_neg h]
  · rw [jabs, if_neg (not_lt.mpr h), abs_of_nonneg h]

example : rgbToHex 170 187 204 = "#aabbcc" := by decide
example : rgbToHex 0 0 0 = "#000000" := by decide
example : rgbToHex 255 255 255 = "#ffffff" := by decide
example : hexToRgb "#AABBCC" = ⟨170, 187, 204⟩ := by decide
example : hexToRgb "aabbcc" = ⟨170, 187, 204⟩ := by decide
example : hexToRgb "red" = ⟨255, 255, 255⟩ := by decide
example : applyContrast 300 1 = 300 := by norm_num [applyContrast, jabs]
example : getCharacterForBrightness 128 DEFAULT_SETTINGS.characterSet false = '+' := by
  norm_num [getCharacterForBrightness, DEFAULT_SETTINGS, jmin, jmax, jround, jminInt,
    jmaxInt]
  rfl

/-- C2 counterexample: `applyContrast` takes the neutral-contrast identity
branch at contrast 1 and returns the out-of-range input 300 unchanged, so
its output is not clamped into [0,255] for every real input. -/
theorem C2_counterexample : applyContrast 300 1 = 300 ∧ ¬ applyContrast 300 1 ≤ 255 := by
  norm_num [applyContrast, jabs]

/-- C2 (amended): `applyBrightness` always lands in [0,255]; `applyContrast`
lands in [0,255] whenever the contrast factor is at least 0.001 away from
neutral, and otherwise returns its input unchanged (so out-of-range inputs
pass through). -/
theorem C2_amended (value brightness contrast : ℚ) :
    (0 ≤ applyBrightness value brightness ∧ applyBrightness value brightness ≤ 255) ∧
    (¬ jabs (contrast - 1) < 0.001 →
      0 ≤ applyContrast value contrast ∧ applyContrast value contrast ≤ 255) ∧
    (jabs (contrast - 1) < 0.001 → applyContrast value contrast = value) := by
  refine ⟨⟨?_, ?_⟩, ?_, ?_⟩
  · rw [applyBrightness, jmin_eq_min, jmax_eq_max]
    exact le_min (by norm_num) (le_max_left 0 _)
  · rw [applyBrightness, jmin_eq_min]
    exact min_le_left _ _
  · intro h
    rw [applyContrast, if_neg h, jmin_eq_min, jmax_eq_max]
    exact ⟨le_min (by norm_num) (le_max_left 0 _), min_le_left _ _⟩
  · intro h
    rw [applyContrast, if_pos h]

/-- C2 witness: the amended theorem applied at value 300, contrast 2. -/
theorem C2_amended_witness :
    0 ≤ applyContrast 300 2 ∧ applyContrast 300 2 ≤ 255 :=
  (C2_amended 300 1 2).2.1 (by norm_num [jabs])

/-- C4 counterexample: a 2-frame GIF whose first frame has delay 0 exports
with delays [100, 200], not the source delays [0, 200]: a zero delay is not
preserved (`delay || 100`). -/
theorem C4_counterexample :
    (exportAsGIFGif [⟨0, 2⟩, ⟨200, 0⟩]).map ExportedGifFrame.delay = [100, 200] ∧
    ([⟨0, 2⟩, ⟨200, 0⟩] : List GifFrame).map GifFrame.delay = [0, 200] ∧
    (exportAsGIFGif [⟨0, 2⟩, ⟨200, 0⟩]).map ExportedGifFrame.delay ≠
      ([⟨0, 2⟩, ⟨200, 0⟩] : List GifFrame).map GifFrame.delay := by
  refine ⟨?_, by norm_num, ?_⟩ <;>
    norm_num [exportAsGIFGif, List.enum, List.enumFrom]

/-- C4 (amended): the GIF branch of `exportAsGIF` appends exactly one output
frame per source frame, in sequence order with no skipping; each output
frame carries the source frame's delay when that delay is nonzero, and 100
in place of a zero delay. -/
theorem C4_amended (gifFrames : List GifFrame) :
    (exportAsGIFGif gifFrames).length = gifFrames.length ∧
    (exportAsGIFGif gifFrames).map ExportedGifFrame.sourceIndex =
      List.range gifFrames.length ∧
    (exportAsGIFGif gifFrames).map ExportedGifFrame.delay =
      gifFrames.map (fun f => if f.delay = 0 then 100 else f.delay) := by
  refine ⟨by simp [exportAsGIFGif], ?_, ?_⟩
  · rw [exportAsGIFGif, List.map_map]
    have : (ExportedGifFrame.sourceIndex ∘ fun p : ℕ × GifFrame =>
        (⟨p.1, if p.2.delay = 0 then 100 else p.2.delay⟩ : ExportedGifFrame)) =
        Prod.fst := rfl
    rw [this, List.enum_map_fst]
  · rw [exportAsGIFGif, List.map_map]
    have : (ExportedGifFrame.delay ∘ fun p : ℕ × GifFrame =>
        (⟨p.1, if p.2.delay = 0 then 100 else p.2.delay⟩ : ExportedGifFrame)) =
        (fun f : GifFrame => if f.delay = 0 then 100 else f.delay) ∘ Prod.snd := rfl
    rw [this, ← List.map_map, List.enum_map_snd]

/-- C6: flipping the invert flag mirrors the glyph lookup exactly, for every
intensity in [0,255and every ramp:
`glyphFor(x, ramp, true) = glyphFor(255 - x, ramp, false)`. -/
theorem C6_invert_reverses (x : ℚ) (ramp : List Char) (h0 : 0 ≤ x) (h255 : x ≤ 255) :
    getCharacterForBrightness x ramp true =
      getCharacterForBrightness (255 - x) ramp false := by
  by_cases hlen0 : ramp.length = 0
  · simp [getCharacterForBrightness, hlen0]
  by_cases hlen1 : ramp.length = 1
  · simp [getCharacterForBrightness, hlen0, hlen1]
  have key : jmin 255 (jmax 0 x) = x := by
    rw [jmin_eq_min, jmax_eq_max, max_eq_right h0, min_eq_right h255]
  have key2 : jmin 255 (jmax 0 (255 - x)) = 255 - x := by
    rw [jmin_eq_min, jmax_eq_max, max_eq_right (by linarith), min_eq_right (by linarith)]
  have hadj : (1 : ℚ) - jmin 255 (jmax 0 x) / 255 = jmin 255 (jmax 0 (255 - x)) / 255 := by
    rw [key, key2]; ring
  simp only [getCharacterForBrightness, hlen0, hlen1, if_false, if_true,
    Bool.false_eq_true, ite_false, ite_true]
  rw [hadj]

/-- C6 witness: the theorem at intensity 100 over the default ramp. -/
theorem C6_invert_reverses_witness :
    getCharacterForBrightness 100 DEFAULT_SETTINGS.characterSet true =
      getCharacterForBrightness (255 - 100) DEFAULT_SETTINGS.characterSet false :=
  C6_invert_reverses 100 DEFAULT_SETTINGS.characterSet (by norm_num) (by norm_num)

/-- C8: the video-resampling export path appends exactly
`min(floor(duration * 15), 150)` frames, each with delay 1000/15 ms. -/
theorem C8_video_export_cap (duration : ℚ) (h : 0 ≤ duration) :
    ((exportAsGIFVideo duration).length : ℤ) = jminInt ⌊duration * 15⌋ 150 ∧
    ∀ f ∈ exportAsGIFVideo duration, f.delay = 1000 / 15 := by
  constructor
  · have hlen : (exportAsGIFVideo duration).length = (jminInt ⌊duration * 15⌋ 150).toNat := by
      simp [exportAsGIFVideo]
    have h0 : 0 ≤ jminInt ⌊duration * 15⌋ 150 := by
      rw [jminInt]
      split_ifs with hle
      · exact Int.floor_nonneg.mpr (by positivity)
      · norm_num
    rw [hlen]
    exact Int.toNat_of_nonneg h0
  · intro f hf
    rw [exportAsGIFVideo] at hf
    simp only [List.mem_map, List.mem_range] at hf
    obtain ⟨i, _, hi⟩ := hf
    rw [← hi]

/-- C8 witness: a 60-second video exports exactly 150 frames (the cap),
all at delay 1000/15. -/
theorem C8_video_export_cap_witness :
    ((exportAsGIFVideo 60).length : ℤ) = 150 ∧
    ∀ f ∈ exportAsGIFVideo 60, f.delay = 1000 / 15 := by
  have h := C8_video_export_cap 60 (by norm_num)
  refine ⟨h.1.trans ?_, h.2⟩
  norm_num [jminInt]

/-- C9: starting from 2..8 gradient stops, each control-panel mutation
(add a stop, remove the stop at a panel-offered index, update the stop at a
panel-offered index) keeps the stop count within [2,8]. -/
theorem C9_gradient_stop_invariant (colors : List String) (index : ℕ) (color : String)
    (h2 : 2 ≤ colors.length) (h8 : colors.length ≤ 8) (hi : index < colors.length) :
    (2 ≤ (addGradientColor colors).length ∧ (addGradientColor colors).length ≤ 8) ∧
    (2 ≤ (removeGradientColor colors index).length ∧
      (removeGradientColor colors index).length ≤ 8) ∧
    (2 ≤ (updateGradientColor colors index color).length ∧
      (updateGradientColor colors index color).length ≤ 8) := by
  refine ⟨?_, ?_, ?_⟩
  · rw [addGradientColor]
    split_ifs with h
    · rw [List.length_append]; simp; omega
    · omega
  · rw [removeGradientColor]
    split_ifs with h
    · rw [List.length_eraseIdx_of_lt hi]; omega
    · omega
  · rw [updateGradientColor, List.length_set]; omega

/-- C9 witness: the invariant at the default three gradient stops. -/
theorem C9_gradient_stop_invariant_witness :
    (2 ≤ (addGradientColor DEFAULT_SETTINGS.gradientColors).length ∧
      (addGradientColor DEFAULT_SETTINGS.gradientColors).length ≤ 8) ∧
    (2 ≤ (removeGradientColor DEFAULT_SETTINGS.gradientColors 0).length ∧
      (removeGradientColor DEFAULT_SETTINGS.gradientColors 0).length ≤ 8) ∧
    (2 ≤ (updateGradientColor DEFAULT_SETTINGS.gradientColors 0 "#123456").length ∧
      (updateGradientColor DEFAULT_SETTINGS.gradientColors 0 "#123456").length ≤ 8) :=
  C9_gradient_stop_invariant DEFAULT_SETTINGS.gradientColors 0 "#123456"
    (by decide) (by decide) (by decide)

theorem digitVal_digitChar : ∀ v : Fin 16, hexDigitVal (hexDigitChar v.val) = some v.val := by
  decide

theorem padStart2_toString16_byte :
    ∀ a b : Fin 16,
      padStart2 (toString16 (16 * a.val + b.val)) = [hexDigitChar a.val, hexDigitChar b.val] := by
  decide

theorem parseHex6_mkHexColor (v1 v2 v3 v4 v5 v6 : Fin 16) :
    parseHex6 (stripHash (mkHexColor v1 v2 v3 v4 v5 v6).toList) =
      some (16 * v1.val + v2.val, 16 * v3.val + v4.val, 16 * v5.val + v6.val) := by
  show parseHex6 (stripHash ('#' :: _)) = _
  rw [stripHash]
  rw [parseHex6]
  rw [digitVal_digitChar v1, digitVal_digitChar v2, digitVal_digitChar v3,
    digitVal_digitChar v4, digitVal_digitChar v5, digitVal_digitChar v6]

theorem hexToRgb_mkHexColor (v1 v2 v3 v4 v5 v6 : Fin 16) :
    hexToRgb (mkHexColor v1 v2 v3 v4 v5 v6) =
      ⟨16 * v1.val + v2.val, 16 * v3.val + v4.val, 16 * v5.val + v6.val⟩ := by
  rw [hexToRgb, parseHex6_mkHexColor]

theorem canonHexRoundTrip (v1 v2 v3 v4 v5 v6 : Fin 16) :
    rgbToHex (hexToRgb (mkHexColor v1 v2 v3 v4 v5 v6)).r
      (hexToRgb (mkHexColor v1 v2 v3 v4 v5 v6)).g
      (hexToRgb (mkHexColor v1 v2 v3 v4 v5 v6)).b = mkHexColor v1 v2 v3 v4 v5 v6 := by
  rw [hexToRgb_mkHexColor, rgbToHex]
  rw [padStart2_toString16_byte v1 v2, padStart2_toString16_byte v3 v4,
    padStart2_toString16_byte v5 v6]
  rfl

/-- C5 counterexample: `"aabbcc"` (no hash) matches the `hexToRgb` regex,
so it is a well-formed 6-digit hex input, but the round trip returns
`"#aabbcc"`, which is a different string. -/
theorem C5_counterexample :
    wellFormedHex "aabbcc" = true ∧
    rgbToHex (hexToRgb "aabbcc").r (hexToRgb "aabbcc").g (hexToRgb "aabbcc").b
      = "#aabbcc" ∧
    ("#aabbcc" : String) ≠ "aabbcc" := by
  decide

/-- C5 (amended): the round trip `rgbToHex(hexToRgb(h)) = h` holds for
every `h` in the canonical form `'#'` followed by six lowercase hex
digits (all of which are well-formed inputs); inputs that are well-formed
only up to case or a missing hash are normalized, not preserved. -/
theorem C5_amended (v1 v2 v3 v4 v5 v6 : Fin 16) :
    wellFormedHex (mkHexColor v1 v2 v3 v4 v5 v6) = true ∧
    rgbToHex (hexToRgb (mkHexColor v1 v2 v3 v4 v5 v6)).r
      (hexToRgb (mkHexColor v1 v2 v3 v4 v5 v6)).g
      (hexToRgb (mkHexColor v1 v2 v3 v4 v5 v6)).b = mkHexColor v1 v2 v3 v4 v5 v6 := by
  constructor
  · rw [wellFormedHex, parseHex6_mkHexColor]
    rfl
  · exact canonHexRoundTrip v1 v2 v3 v4 v5 v6

theorem jround_natCast (n : ℕ) : jround (n : ℚ) = n := by
  rw [jround, show ((n : ℚ) + 1/2) = 1/2 + ((n : ℤ) : ℚ) by push_cast; ring,
    Int.floor_add_int]
  norm_num

theorem interpolate_zero (colors : List String) (h2 : 2 ≤ colors.length) :
    interpolateGradient colors 0 =
      rgbToHex (hexToRgb (colors.getD 0 "")).r (hexToRgb (colors.getD 0 "")).g
        (hexToRgb (colors.getD 0 "")).b := by
  rw [interpolateGradient, if_neg (by omega), if_neg (by omega)]
  dsimp only
  simp only [zero_mul, Int.floor_zero, Int.cast_zero, sub_zero, Int.toNat_zero,
    mul_zero, add_zero, jround_natCast, Int.toNat_natCast]
  rw [if_neg (by omega)]

theorem interpolate_one (colors : List String) (h2 : 2 ≤ colors.length) :
    interpolateGradient colors 1 = colors.getLastD "" := by
  rw [interpolateGradient, if_neg (by omega), if_neg (by omega)]
  dsimp only
  rw [if_pos]
  rw [one_mul, show ((colors.length : ℚ) - 1) = (((colors.length : ℤ) - 1 : ℤ) : ℚ) by
    push_cast; ring, Int.floor_intCast]

/-- C7 counterexample: for the 2-stop list `["#AABBCC", "#000000"]`,
interpolation at position 0 returns the lowercased `"#aabbcc"`, not the
first stop `"#AABBCC"` itself. -/
theorem C7_counterexample :
    interpolateGradient ["#AABBCC", "#000000"] 0 = "#aabbcc" ∧
    ("#aabbcc" : String) ≠ "#AABBCC" := by
  constructor
  · rw [interpolate_zero ["#AABBCC", "#000000"] (by decide)]
    decide
  · decide

/-- C7 (amended): with at least two stops, interpolation at position 1
returns the last stop verbatim; interpolation at position 0 returns the
first stop provided that stop is written as `'#'` plus six lowercase hex
digits (otherwise it returns that stop re-encoded through
`hexToRgb`/`rgbToHex`). -/
theorem C7_amended (stops : List String) (v1 v2 v3 v4 v5 v6 : Fin 16)
    (h2 : 2 ≤ stops.length)
    (hhead : stops.getD 0 "" = mkHexColor v1 v2 v3 v4 v5 v6) :
    interpolateGradient stops 0 = stops.getD 0 "" ∧
    interpolateGradient stops 1 = stops.getLastD "" := by
  constructor
  · rw [interpolate_zero stops h2, hhead]
    exact canonHexRoundTrip v1 v2 v3 v4 v5 v6
  · exact interpolate_one stops h2

/-- C7 witness: the amended theorem at the stop list
`["#00ff88", "#ff00ff"]`, whose first stop is canonical. -/
theorem C7_amended_witness :
    interpolateGradient ["#00ff88", "#ff00ff"] 0 = ["#00ff88", "#ff00ff"].getD 0 "" ∧
    interpolateGradient ["#00ff88", "#ff00ff"] 1 = ["#00ff88", "#ff00ff"].getLastD "" :=
  C7_amended ["#00ff88", "#ff00ff"] 0 0 15 15 8 8 (by decide) (by decide)

theorem sampleDim_pos (dim : ℕ) (step : ℚ) (i : ℕ) (hstep : 2 ≤ step)
    (hi : i < (⌊(dim : ℚ) / step⌋).toNat) :
    1 ≤ (jminInt ⌈step⌉ ((dim : ℤ) - ⌊(i : ℚ) * step⌋)).toNat := by
  have h0 : (0 : ℚ) < step := by linarith
  have hiZ : (i : ℤ) < ⌊(dim : ℚ) / step⌋ := by omega
  have h1 : ((i : ℚ) + 1) ≤ (⌊(dim : ℚ) / step⌋ : ℚ) := by
    have h : (i : ℤ) + 1 ≤ ⌊(dim : ℚ) / step⌋ := hiZ
    exact_mod_cast h
  have h2 : ((i : ℚ) + 1) ≤ (dim : ℚ) / step := le_trans h1 (Int.floor_le _)
  have h3 : ((i : ℚ) + 1) * step ≤ (dim : ℚ) := by
    have h := mul_le_mul_of_nonneg_right h2 h0.le
    rwa [div_mul_cancel₀ _ h0.ne'] at h
  have h4 : (i : ℚ) * step ≤ (dim : ℚ) - 2 := by nlinarith
  have h5 : ⌊(i : ℚ) * step⌋ ≤ (dim : ℤ) - 2 := by
    have hh : ⌊(i : ℚ) * step⌋ ≤ ⌊(dim : ℚ) - 2⌋ := Int.floor_mono h4
    rwa [show ((dim : ℚ) - 2) = (((dim : ℤ) - 2 : ℤ) : ℚ) by push_cast; ring,
      Int.floor_intCast] at hh
  have h6 : 2 ≤ ⌈step⌉ := by
    have h : (2 : ℚ) ≤ (⌈step⌉ : ℚ) := le_trans hstep (Int.le_ceil step)
    exact_mod_cast h
  rw [jminInt]
  split_ifs with h <;> omega

theorem sampleW_pos (frame : Frame) (s : ASCIISettings) (x : ℕ)
    (hp : 2 ≤ s.pixelSize) (hx : x < (colsOf frame.width s).toNat) :
    1 ≤ sampleW frame s x := by
  rw [sampleW, pixelXOf]
  exact sampleDim_pos frame.width (stepX s) x (by rw [stepX]; exact hp)
    (by rwa [colsOf] at hx)

theorem stepY_ge_two (s : ASCIISettings) (hp : 2 ≤ s.pixelSize) : 2 ≤ stepY s := by
  rw [stepY, CHAR_ASPECT_RATIO]
  rw [le_div_iff (by norm_num : (0:ℚ) < 0.6)]
  nlinarith

theorem sampleH_pos (frame : Frame) (s : ASCIISettings) (y : ℕ)
    (hp : 2 ≤ s.pixelSize) (hy : y < (rowsOf frame.height s).toNat) :
    1 ≤ sampleH frame s y := by
  rw [sampleH, pixelYOf]
  exact sampleDim_pos frame.height (stepY s) y (stepY_ge_two s hp)
    (by rwa [rowsOf] at hy)

theorem sampleCount_ne_zero (frame : Frame) (s : ASCIISettings) (x y : ℕ)
    (hp : 2 ≤ s.pixelSize) (hx : x < (colsOf frame.width s).toNat)
    (hy : y < (rowsOf frame.height s).toNat) :
    sampleCount frame s x y ≠ 0 := by
  have hW := sampleW_pos frame s x hp hx
  have hH := sampleH_pos frame s y hp hy
  rw [sampleCount]
  exact Nat.mul_ne_zero (by omega) (by omega)

theorem cellOf_isSome (frame : Frame) (s : ASCIISettings) (x y : ℕ)
    (hp : 2 ≤ s.pixelSize) (hx : x < (colsOf frame.width s).toNat)
    (hy : y < (rowsOf frame.height s).toNat) :
    (cellOf frame s x y).isSome := by
  rw [cellOf, if_neg (sampleCount_ne_zero frame s x y hp hx hy)]
  rfl

theorem length_filterMap_eq {α β : Type} (f : α → Option β) (l : List α)
    (h : ∀ a ∈ l, (f a).isSome) : (l.filterMap f).length = l.length := by
  induction l with
  | nil => rfl
  | cons a l ih =>
    rw [List.filterMap_cons]
    obtain ⟨b, hb⟩ := Option.isSome_iff_exists.mp (h a (List.mem_cons_self a l))
    rw [hb, List.length_cons, List.length_cons,
      ih (fun a ha => h a (List.mem_cons_of_mem _ ha))]

/-- C3: for any frame of positive dimensions and pixelSize at least 2,
the sampled grid has exactly `floor(height / (pixelSize / 0.6))` rows and
every row has exactly `floor(width / pixelSize)` cells. -/
theorem C3_grid_dimensions (frame : Frame) (s : ASCIISettings)
    (hw : 1 ≤ frame.width) (hh : 1 ≤ frame.height) (hp : 2 ≤ s.pixelSize) :
    ((convertFrameToASCII frame s).length : ℤ) =
      ⌊(frame.height : ℚ) / (s.pixelSize / 0.6)⌋ ∧
    ∀ row ∈ convertFrameToASCII frame s,
      ((row.length : ℤ)) = ⌊(frame.width : ℚ) / s.pixelSize⌋ := by
  have hrows : ⌊(frame.height : ℚ) / (s.pixelSize / 0.6)⌋ = rowsOf frame.height s := by
    rw [rowsOf, stepY, CHAR_ASPECT_RATIO]
  have hcols : ⌊(frame.width : ℚ) / s.pixelSize⌋ = colsOf frame.width s := by
    rw [colsOf, stepX]
  have hrows0 : 0 ≤ rowsOf frame.height s := by
    rw [rowsOf]
    refine Int.floor_nonneg.mpr (div_nonneg (by positivity) ?_)
    have := stepY_ge_two s hp
    linarith
  have hcols0 : 0 ≤ colsOf frame.width s := by
    rw [colsOf, stepX]
    refine Int.floor_nonneg.mpr (div_nonneg (by positivity) (by linarith))
  constructor
  · rw [convertFrameToASCII, List.length_map, List.length_range, hrows]
    exact Int.toNat_of_nonneg hrows0
  · intro row hrow
    rw [convertFrameToASCII, List.mem_map] at hrow
    obtain ⟨y, hy, rfl⟩ := hrow
    rw [List.mem_range] at hy
    rw [length_filterMap_eq _ _ (fun x hx =>
      cellOf_isSome frame s x y hp (List.mem_range.mp hx) hy)]
    rw [List.length_range, hcols]
    exact Int.toNat_of_nonneg hcols0

/-- C3 witness: a 3×5 all-black frame with pixelSize 3 gives a 1×1 grid
matching the floor formulas. -/
theorem C3_grid_dimensions_witness :
    ((convertFrameToASCII blackFrame smallSettings).length : ℤ) =
      ⌊(blackFrame.height : ℚ) / (smallSettings.pixelSize / 0.6)⌋ ∧
    ∀ row ∈ convertFrameToASCII blackFrame smallSettings,
      ((row.length : ℤ)) = ⌊(blackFrame.width : ℚ) / smallSettings.pixelSize⌋ :=
  C3_grid_dimensions blackFrame smallSettings (by norm_num [blackFrame])
    (by norm_num [blackFrame]) (by norm_num [smallSettings, DEFAULT_SETTINGS])

/-- C10: with positive frame dimensions and pixelSize at least 2, every
in-grid cell samples at least one pixel (the `count === 0` omission branch
never fires), so the emitted grid is rectangular: every row carries exactly
`cols` cells. -/
theorem C10_no_empty_cells (frame : Frame) (s : ASCIISettings)
    (hw : 1 ≤ frame.width) (hh : 1 ≤ frame.height) (hp : 2 ≤ s.pixelSize) :
    (∀ x y, x < (colsOf frame.width s).toNat → y < (rowsOf frame.height s).toNat →
      cellOf frame s x y ≠ none) ∧
    ∀ row ∈ convertFrameToASCII frame s, row.length = (colsOf frame.width s).toNat := by
  constructor
  · intro x y hx hy
    have h := cellOf_isSome frame s x y hp hx hy
    intro hnone
    rw [hnone] at h
    exact absurd h (by simp)
  · intro row hrow
    rw [convertFrameToASCII, List.mem_map] at hrow
    obtain ⟨y, hy, rfl⟩ := hrow
    rw [List.mem_range] at hy
    rw [length_filterMap_eq _ _ (fun x hx =>
      cellOf_isSome frame s x y hp (List.mem_range.mp hx) hy)]
    exact List.length_range _

/-- C10 witness: the theorem at the 3×5 black frame with pixelSize 3. -/
theorem C10_no_empty_cells_witness :
    (∀ x y, x < (colsOf blackFrame.width smallSettings).toNat →
      y < (rowsOf blackFrame.height smallSettings).toNat →
      cellOf blackFrame smallSettings x y ≠ none) ∧
    ∀ row ∈ convertFrameToASCII blackFrame smallSettings,
      row.length = (colsOf blackFrame.width smallSettings).toNat :=
  C10_no_empty_cells blackFrame smallSettings (by norm_num [blackFrame])
    (by norm_num [blackFrame]) (by norm_num [smallSettings, DEFAULT_SETTINGS])

theorem cellTotal_black (s : ASCIISettings) (x y : ℕ) (chan : Rgb → ℚ)
    (hchan : chan ⟨0, 0, 0⟩ = 0) : cellTotal blackFrame s x y chan = 0 := by
  rw [cellTotal]
  simp [blackFrame, hchan]

theorem preBlendAvg_black (s : ASCIISettings) (x y : ℕ) :
    preBlendAvg blackFrame s x y = ⟨0, 0, 0⟩ := by
  rw [preBlendAvg, cellTotal_black s x y Rgb.r rfl, cellTotal_black s x y Rgb.g rfl,
    cellTotal_black s x y Rgb.b rfl]
  simp

theorem diff_stepX : stepX diffSettings = 3 := by
  norm_num [stepX, diffSettings, DEFAULT_SETTINGS]

theorem diff_stepY : stepY diffSettings = 5 := by
  rw [stepY, CHAR_ASPECT_RATIO]
  norm_num [diffSettings, DEFAULT_SETTINGS]

theorem ceil_three : (⌈(3 : ℚ)⌉ : ℤ) = 3 := by norm_num [Int.ceil_eq_iff]

theorem ceil_five : (⌈(5 : ℚ)⌉ : ℤ) = 5 := by norm_num [Int.ceil_eq_iff]

theorem diff_sampleW : sampleW blackFrame diffSettings 0 = 3 := by
  rw [sampleW, pixelXOf, diff_stepX]
  norm_num [blackFrame, jminInt, ceil_three]
  rfl

theorem diff_sampleH : sampleH blackFrame diffSettings 0 = 5 := by
  rw [sampleH, pixelYOf, diff_stepY]
  norm_num [blackFrame, jminInt, ceil_five]
  rfl

theorem diff_pixelX : pixelXOf diffSettings 0 = 0 := by
  rw [pixelXOf, diff_stepX]
  norm_num

theorem diff_pixelY : pixelYOf diffSettings 0 = 0 := by
  rw [pixelYOf, diff_stepY]
  norm_num

theorem blend_diff_zero : applyBlendMode 0 0 0 BlendMode.difference = ⟨128, 128, 128⟩ := by
  rw [applyBlendMode]
  norm_num [jabs]

theorem gray_diff :
    applyContrast (applyBrightness (rgbToGrayscale 128 128 128) 1) 1 = 128 := by
  have h1 : rgbToGrayscale 128 128 128 = 128 := by norm_num [rgbToGrayscale]
  have h2 : applyBrightness 128 1 = 128 := by norm_num [applyBrightness, jmin, jmax]
  have h3 : applyContrast 128 1 = 128 := by norm_num [applyContrast, jabs]
  rw [h1, h2, h3]

theorem char_at_128 :
    getCharacterForBrightness 128 DEFAULT_SETTINGS.characterSet false = '+' := by
  norm_num [getCharacterForBrightness, DEFAULT_SETTINGS, jmin, jmax, jround, jminInt,
    jmaxInt]
  rfl

theorem cellOf_black_diff :
    cellOf blackFrame diffSettings 0 0 = some ⟨'+', "#808080", 0, 0⟩ := by
  have hne : sampleCount blackFrame diffSettings 0 0 ≠ 0 := by
    rw [sampleCount, diff_sampleW, diff_sampleH]
    norm_num
  rw [cellOf, if_neg hne, preBlendAvg_black]
  dsimp only
  rw [show diffSettings.blendMode = BlendMode.difference from rfl, blend_diff_zero]
  dsimp only
  rw [show diffSettings.brightness = 1 from rfl, show diffSettings.contrast = 1 from rfl,
    gray_diff, diff_pixelX, diff_pixelY]
  rw [show diffSettings.colorMode = ColorMode.original from rfl]
  dsimp only
  rw [show diffSettings.characterSet = DEFAULT_SETTINGS.characterSet from rfl,
    show diffSettings.invert = false from rfl, char_at_128]
  rw [show jround 128 = 128 by rw [jround]; norm_num]
  rfl

theorem rows_black_diff : (rowsOf blackFrame.height diffSettings).toNat = 1 := by
  rw [rowsOf, diff_stepY]
  norm_num [blackFrame]

theorem cols_black_diff : (colsOf blackFrame.width diffSettings).toNat = 1 := by
  rw [colsOf, diff_stepX]
  norm_num [blackFrame]

theorem convert_black_diff :
    convertFrameToASCII blackFrame diffSettings = [[⟨'+', "#808080", 0, 0⟩]] := by
  rw [convertFrameToASCII, rows_black_diff, cols_black_diff,
    show List.range 1 = [0] from rfl]
  rw [List.map_cons, List.map_nil, List.filterMap_cons, cellOf_black_diff]
  rfl

/-- C1 counterexample: on the all-black frame with blend mode `difference`
and color mode `original`, the sampled cell's display color is `"#808080"`
(the post-blend average), while the pre-blend averaged RGB rounded to hex
is `"#000000"`: the blend-mode transform does feed the original-mode
color. -/
theorem C1_counterexample :
    ((convertFrameToASCII blackFrame diffSettings).headD []).headD ⟨' ', "", 0, 0⟩ =
      ⟨'+', "#808080", 0, 0⟩ ∧
    originalColorSpec blackFrame diffSettings 0 0 = "#000000" ∧
    ("#808080" : String) ≠ "#000000" := by
  refine ⟨by rw [convert_black_diff]; rfl, ?_, by decide⟩
  rw [originalColorSpec, preBlendAvg_black]
  dsimp only
  rw [show jround 0 = 0 by rw [jround]; norm_num]
  decide

/-- C1 (amended): in `original` color mode every sampled cell's display
color is the *post-blend* averaged RGB rounded to hex — the blend-mode
transform feeds both the glyph intensity pipeline and the original-mode
color. -/
theorem C1_amended (frame : Frame) (s : ASCIISettings)
    (hmode : s.colorMode = ColorMode.original) :
    ∀ row ∈ convertFrameToASCII frame s, ∀ cell ∈ row,
      ∃ x y, cellOf frame s x y = some cell ∧
        cell.color =
          rgbToHex (jround (applyBlendMode (preBlendAvg frame s x y).r
              (preBlendAvg frame s x y).g (preBlendAvg frame s x y).b s.blendMode).r).toNat
            (jround (applyBlendMode (preBlendAvg frame s x y).r
              (preBlendAvg frame s x y).g (preBlendAvg frame s x y).b s.blendMode).g).toNat
            (jround (applyBlendMode (preBlendAvg frame s x y).r
              (preBlendAvg frame s x y).g (preBlendAvg frame s x y).b s.blendMode).b).toNat := by
  intro row hrow cell hcell
  rw [convertFrameToASCII, List.mem_map] at hrow
  obtain ⟨y, hy, rfl⟩ := hrow
  rw [List.mem_filterMap] at hcell
  obtain ⟨x, hx, hsome⟩ := hcell
  refine ⟨x, y, hsome, ?_⟩
  rw [cellOf] at hsome
  by_cases hc : sampleCount frame s x y = 0
  · rw [if_pos hc] at hsome
    exact absurd hsome (by simp)
  · rw [if_neg hc] at hsome
    dsimp only at hsome
    rw [hmode] at hsome
    obtain rfl := Option.some_injective _ hsome
    rfl

/-- C1 witness: the amended theorem instantiated on the all-black frame
with blend mode `difference`. -/
theorem C1_amended_witness :
    ∃ x y, cellOf blackFrame diffSettings x y = some ⟨'+', "#808080", 0, 0⟩ ∧
      ASCIIChar.color ⟨'+', "#808080", 0, 0⟩ =
        rgbToHex (jround (applyBlendMode (preBlendAvg blackFrame diffSettings x y).r
            (preBlendAvg blackFrame diffSettings x y).g
            (preBlendAvg blackFrame diffSettings x y).b diffSettings.blendMode).r).toNat
          (jround (applyBlendMode (preBlendAvg blackFrame diffSettings x y).r
            (preBlendAvg blackFrame diffSettings x y).g
            (preBlendAvg blackFrame diffSettings x y).b diffSettings.blendMode).g).toNat
          (jround (applyBlendMode (preBlendAvg blackFrame diffSettings x y).r
            (preBlendAvg blackFrame diffSettings x y).g
            (preBlendAvg blackFrame diffSettings x y).b diffSettings.blendMode).b).toNat :=
  C1_amended blackFrame diffSettings rfl
    [⟨'+', "#808080", 0, 0⟩] (by rw [convert_black_diff]; exact List.mem_singleton.mpr rfl)
    ⟨'+', "#808080", 0, 0⟩ (List.mem_singleton.mpr rfl)

end AsciiVidGen
